import Mathlib

/-!
Verification of the terminal snake game (`src/snake/main.py`).

The Python source is shallowly embedded: the mutable `Snake` object becomes a
structure passed and returned explicitly, Python `int` becomes `Int` (the `%` of Python with a positive modulus agrees with `Int.emod`), Python lists become
`List`, and the fallible parts (`sys.exit` in apple placement, `IndexError`
on out-of-range board writes) return `Option`.  `random.choice(free)` is
modelled by an arbitrary index `choice`, reduced modulo the length of the
free list.
-/

namespace SnakeGame

/-- ANSI escape code `RESET` from the source. -/
def RESET : String := "\x1b[0m"

/-- ANSI escape code `GREEN` from the source. -/
def GREEN : String := "\x1b[32m"

/-- ANSI escape code `RED` from the source. -/
def RED : String := "\x1b[31m"

/-- ANSI escape code `BLUE` from the source. -/
def BLUE : String := "\x1b[34m"

/-- Characters removed by the Python `str.strip()` method with no argument
(ASCII whitespace; the embedding restricts to the ASCII range actually fed
to the game from single-byte terminal reads). -/
def py_isspace (c : Char) : Bool :=
  c = ' ' || c = '\t' || c = '\n' || c = '\x0d' || c = '\x0b' || c = '\x0c'

/-- The Python `str.strip()` method: drop leading and trailing whitespace. -/
def py_strip (s : String) : String :=
  String.mk (((s.data.dropWhile py_isspace).reverse.dropWhile py_isspace).reverse)

/-- The Python `str.lower()` method, restricted to ASCII (all keys the game consults
are single ASCII characters). -/
def py_lower (s : String) : String :=
  String.mk (s.data.map Char.toLower)

/-- `Point2D`: integer pair with structural equality (`__eq__`/`__hash__`). -/
structure Point2D where
  x : Int
  y : Int
deriving DecidableEq

/-- `Point2D.__add__`: componentwise sum. -/
def Point2D.add (a b : Point2D) : Point2D :=
  ⟨a.x + b.x, a.y + b.y⟩

/-- `Point2D.__neg__`: componentwise negation. -/
def Point2D.neg (p : Point2D) : Point2D :=
  ⟨-p.x, -p.y⟩

/-- `Point2D.squash`: componentwise `%` into the bounds.  The Python `%` with a
positive right operand is `Int.emod`. -/
def Point2D.squash (p : Point2D) (x_bounds y_bounds : Int) : Point2D :=
  ⟨p.x % x_bounds, p.y % y_bounds⟩

/-- The `Direction` enum. -/
inductive Direction where
  | UP
  | DOWN
  | RIGHT
  | LEFT
deriving DecidableEq

/-- The `Point2D` payload of each `Direction` member (`.value` in Python). -/
def Direction.value : Direction → Point2D
  | .UP => ⟨0, -1⟩
  | .DOWN => ⟨0, 1⟩
  | .RIGHT => ⟨1, 0⟩
  | .LEFT => ⟨-1, 0⟩

/-- The `Snake` object: ordered body (head first) and current direction. -/
structure Snake where
  coords : List Point2D
  direction : Direction
deriving DecidableEq

/-- The `char_to_direction` dict built in `Snake.__init__`; `none` models a
failed `in` test. -/
def char_to_direction : String → Option Direction
  | "w" => some .UP
  | "a" => some .LEFT
  | "s" => some .DOWN
  | "d" => some .RIGHT
  | _ => none

/-- `Snake.move(key)`: normalize the key with `strip` and `lower`; if it maps
to a direction, adopt that direction unless the current vector equals the
negation of the requested vector; return `false` exactly for the quit key.
The mutation of `self` is modelled by returning the updated snake together
with the `bool`. -/
def Snake.move (s : Snake) (key : String) : Snake × Bool :=
  let character := py_lower (py_strip key)
  let s1 :=
    match char_to_direction character with
    | some d => if s.direction.value ≠ d.value.neg then { s with direction := d } else s
    | none => s
  (s1, if character = "q" then false else true)

/-- `Snake.grow()`: prepend `coords[0] + direction.value`.  On an empty body
the Python code raises `IndexError`; every claim assumes a non-empty body, so
the empty case is mapped to the unchanged snake. -/
def Snake.grow (s : Snake) : Snake :=
  match s.coords with
  | [] => s
  | h :: t => { s with coords := h.add s.direction.value :: h :: t }

/-- `Snake.update(x_bounds, y_bounds)`: squash every coordinate, `grow()`,
then `pop()` the last element (modelled by `dropLast`). -/
def Snake.update (s : Snake) (x_bounds y_bounds : Int) : Snake :=
  let s1 : Snake := { s with coords := s.coords.map (fun c => c.squash x_bounds y_bounds) }
  let s2 := s1.grow
  { s2 with coords := s2.coords.dropLast }

/-- `Snake.is_dead()`: `coords[0] in coords[1:]`.  The empty case (Python
`IndexError`) is mapped to `false`; every claim assumes a non-empty body. -/
def Snake.is_dead (s : Snake) : Bool :=
  match s.coords with
  | [] => false
  | h :: t => decide (h ∈ t)

/-- The list comprehension in `new_apple_location`: all grid cells, `x` outer
and `y` inner, that are not occupied by the snake. -/
def free_cells (x_bounds y_bounds : Int) (occupied : List Point2D) : List Point2D :=
  (List.range x_bounds.toNat).flatMap (fun (x : Nat) =>
    (List.range y_bounds.toNat).filterMap (fun (y : Nat) =>
      if Point2D.mk (x : Int) (y : Int) ∈ occupied then none
      else some (Point2D.mk (x : Int) (y : Int))))

/-- `new_apple_location`: `none` models the win branch (`print`; `sys.exit(0)`),
which never returns a point; otherwise `random.choice(free)` is modelled by
the arbitrary index `choice` taken modulo the length of the free list. -/
def new_apple_location (x_bounds y_bounds : Int) (snake : Snake) (choice : Nat) :
    Option Point2D :=
  let free := free_cells x_bounds y_bounds snake.coords
  if free.isEmpty then none
  else free[choice % free.length]?

/-- Python list indexing: a negative index counts from the end; out of range
(after that adjustment) raises `IndexError`, modelled by `none`. -/
def pyIndex (len : Nat) (i : Int) : Option Nat :=
  let j := if i < 0 then i + (len : Int) else i
  if 0 ≤ j ∧ j < (len : Int) then some j.toNat else none

/-- The statement `board[yi][xi] = v` from `plot`: fetch row `yi`, assign cell
`xi` in it, both with Python indexing semantics. -/
def setCell (board : List (List String)) (yi xi : Int) (v : String) :
    Option (List (List String)) :=
  match pyIndex board.length yi with
  | none => none
  | some r =>
    let row := board.getD r []
    match pyIndex row.length xi with
    | none => none
    | some c => some (board.set r (row.set c v))

/-- The body of the `for point in snake.coords` loop in `plot`: mark the cell
only when the coordinate lies inside the bounds (the guard in the source), so the
write never needs the Python negative indexing. -/
def mark_cell (x_bounds y_bounds : Int) (board : List (List String)) (p : Point2D) :
    List (List String) :=
  if 0 ≤ p.x ∧ p.x < x_bounds ∧ 0 ≤ p.y ∧ p.y < y_bounds then
    board.set p.y.toNat ((board.getD p.y.toNat []).set p.x.toNat (GREEN ++ "S" ++ RESET))
  else board

/-- The `horizontal_border` string from `plot`: `BLUE + "+" + "-"*x_bounds*2 +
"+" + RESET`. -/
def horizontal_border (x_bounds : Int) : String :=
  BLUE ++ "+" ++ String.mk (List.replicate (x_bounds.toNat * 2) '-') ++ "+" ++ RESET

/-- One rendered board row from `plot`: colored border bar, the cells joined
by single spaces, one space, and a closing colored border bar. -/
def render_row (row : List String) : String :=
  (BLUE ++ "|" ++ RESET) ++ String.intercalate " " row ++ (" " ++ BLUE ++ "|" ++ RESET)

/-- `plot(x_bounds, y_bounds, snake, apple)`: blank board, apple mark (an
unguarded write that can raise, hence `Option`), snake marks in body order,
then the bordered rows between two `horizontal_border` lines.  The
`os.system("clear")` side effect carries no data and is dropped. -/
def plot (x_bounds y_bounds : Int) (snake : Snake) (apple : Point2D) :
    Option (List String) :=
  let board := List.replicate y_bounds.toNat (List.replicate x_bounds.toNat " ")
  match setCell board apple.y apple.x (RED ++ "A" ++ RESET) with
  | none => none
  | some b1 =>
    let b2 := snake.coords.foldl (mark_cell x_bounds y_bounds) b1
    some (horizontal_border x_bounds :: (b2.map render_row ++ [horizontal_border x_bounds]))

/-- Shape of a rendered board: `Y` rows of `X` cells each (verification-side
notion, used to reason about `plot`). -/
def board_shape (X Y : Nat) (b : List (List String)) : Prop :=
  b.length = Y ∧ ∀ r ∈ b, r.length = X

/-! ### Helper lemmas -/

theorem Point2D.neg_neg (p : Point2D) : p.neg.neg = p := by
  cases p
  simp [Point2D.neg]

theorem update_coords_eq (h : Point2D) (t : List Point2D) (d : Direction)
    (x_bounds y_bounds : Int) :
    ((Snake.mk (h :: t) d).update x_bounds y_bounds).coords =
      ((h.squash x_bounds y_bounds).add d.value)
        :: ((h :: t).map (fun p => p.squash x_bounds y_bounds)).dropLast := rfl

theorem squash_mem_bounds (p : Point2D) (x_bounds y_bounds : Int)
    (hx : 0 < x_bounds) (hy : 0 < y_bounds) :
    0 ≤ (p.squash x_bounds y_bounds).x ∧ (p.squash x_bounds y_bounds).x < x_bounds ∧
      0 ≤ (p.squash x_bounds y_bounds).y ∧ (p.squash x_bounds y_bounds).y < y_bounds :=
  ⟨Int.emod_nonneg p.x hx.ne', Int.emod_lt_of_pos p.x hx,
    Int.emod_nonneg p.y hy.ne', Int.emod_lt_of_pos p.y hy⟩

/-! ### Claims -/

/-- C2: for all integers `x`, `y` and bounds `x_bounds > 0`, `y_bounds > 0`,
`squash` lands in `[0, x_bounds) × [0, y_bounds)` and is congruent
componentwise to `(x, y)` modulo the bounds. -/
theorem claim_C2 (x y x_bounds y_bounds : Int) (hx : 0 < x_bounds) (hy : 0 < y_bounds) :
    0 ≤ ((Point2D.mk x y).squash x_bounds y_bounds).x ∧
      ((Point2D.mk x y).squash x_bounds y_bounds).x < x_bounds ∧
      0 ≤ ((Point2D.mk x y).squash x_bounds y_bounds).y ∧
      ((Point2D.mk x y).squash x_bounds y_bounds).y < y_bounds ∧
      Int.ModEq x_bounds ((Point2D.mk x y).squash x_bounds y_bounds).x x ∧
      Int.ModEq y_bounds ((Point2D.mk x y).squash x_bounds y_bounds).y y :=
  ⟨Int.emod_nonneg x hx.ne', Int.emod_lt_of_pos x hx,
    Int.emod_nonneg y hy.ne', Int.emod_lt_of_pos y hy,
    Int.emod_emod_of_dvd x dvd_rfl, Int.emod_emod_of_dvd y dvd_rfl⟩

/-- Witness for C2 at `(7, -3)` with bounds `5 × 4`. -/
theorem claim_C2_witness :
    (0 : Int) < 5 ∧ (0 : Int) < 4 ∧
      (0 ≤ ((Point2D.mk 7 (-3)).squash 5 4).x ∧
        ((Point2D.mk 7 (-3)).squash 5 4).x < 5 ∧
        0 ≤ ((Point2D.mk 7 (-3)).squash 5 4).y ∧
        ((Point2D.mk 7 (-3)).squash 5 4).y < 4 ∧
        Int.ModEq 5 ((Point2D.mk 7 (-3)).squash 5 4).x 7 ∧
        Int.ModEq 4 ((Point2D.mk 7 (-3)).squash 5 4).y (-3)) :=
  ⟨by decide, by decide, claim_C2 7 (-3) 5 4 (by decide) (by decide)⟩

/-- C1 counterexample: a length-1 snake at the origin moving `UP` on a `5 × 5`
board.  After one `update` the head is `(0, -1)`: it is not wrapped into the
board, and it differs from the old head advanced one step and then wrapped
(which would be `(0, 4)`). -/
theorem claim_C1_counterexample :
    ((Snake.mk [Point2D.mk 0 0] Direction.UP).update 5 5).coords.head? =
        some (Point2D.mk 0 (-1)) ∧
      ¬ (0 ≤ (Point2D.mk 0 (-1)).y) ∧
      Point2D.mk 0 (-1) ≠ ((Point2D.mk 0 0).add Direction.UP.value).squash 5 5 := by
  decide

/-- C1 (amended): one `update` squashes the body, then the new head is the
squashed old head advanced one step in the current direction (this advance is
not itself wrapped; wrapping happens at the start of the next `update`), and
the remaining segments are the squashed previous body with the old tail
removed. -/
theorem claim_C1 (h : Point2D) (t : List Point2D) (d : Direction)
    (x_bounds y_bounds : Int) (hx : 0 < x_bounds) (hy : 0 < y_bounds) :
    ((Snake.mk (h :: t) d).update x_bounds y_bounds).coords =
      ((h.squash x_bounds y_bounds).add d.value)
        :: ((h :: t).map (fun p => p.squash x_bounds y_bounds)).dropLast :=
  update_coords_eq h t d x_bounds y_bounds

/-- Witness for C1 (amended) on a concrete length-2 snake. -/
theorem claim_C1_witness :
    (0 : Int) < 5 ∧
      ((Snake.mk [Point2D.mk 0 0, Point2D.mk 1 0] Direction.UP).update 5 5).coords =
        (((Point2D.mk 0 0).squash 5 5).add Direction.UP.value)
          :: ([Point2D.mk 0 0, Point2D.mk 1 0].map (fun p => p.squash 5 5)).dropLast :=
  ⟨by decide,
    claim_C1 (Point2D.mk 0 0) [Point2D.mk 1 0] Direction.UP 5 5 (by decide) (by decide)⟩

/-- C9: after one `update` every non-head segment lies inside the bounds, and
the head is the sum of an in-bounds point and the current unit direction
vector (so it can leave the bounds by at most one in one coordinate). -/
theorem claim_C9 (h : Point2D) (t : List Point2D) (d : Direction)
    (x_bounds y_bounds : Int) (hx : 0 < x_bounds) (hy : 0 < y_bounds) :
    (∀ p ∈ ((Snake.mk (h :: t) d).update x_bounds y_bounds).coords.tail,
        0 ≤ p.x ∧ p.x < x_bounds ∧ 0 ≤ p.y ∧ p.y < y_bounds) ∧
      (∃ q : Point2D, (0 ≤ q.x ∧ q.x < x_bounds ∧ 0 ≤ q.y ∧ q.y < y_bounds) ∧
        d.value.x.natAbs + d.value.y.natAbs = 1 ∧
        ((Snake.mk (h :: t) d).update x_bounds y_bounds).coords.head? =
          some (q.add d.value)) := by
  constructor
  · intro p hp
    rw [update_coords_eq] at hp
    simp only [List.tail_cons] at hp
    have hp' : p ∈ (h :: t).map (fun q => q.squash x_bounds y_bounds) :=
      List.dropLast_subset _ hp
    rcases List.mem_map.mp hp' with ⟨q, _, rfl⟩
    exact squash_mem_bounds q x_bounds y_bounds hx hy
  · refine ⟨h.squash x_bounds y_bounds, squash_mem_bounds h x_bounds y_bounds hx hy, ?_, ?_⟩
    · cases d <;> decide
    · rw [update_coords_eq]
      rfl

/-- Witness for C9 on a concrete length-2 snake. -/
theorem claim_C9_witness :
    (0 : Int) < 5 ∧
      ((∀ p ∈ ((Snake.mk [Point2D.mk 0 0, Point2D.mk 1 0] Direction.UP).update 5 5).coords.tail,
          0 ≤ p.x ∧ p.x < 5 ∧ 0 ≤ p.y ∧ p.y < 5) ∧
        (∃ q : Point2D, (0 ≤ q.x ∧ q.x < 5 ∧ 0 ≤ q.y ∧ q.y < 5) ∧
          Direction.UP.value.x.natAbs + Direction.UP.value.y.natAbs = 1 ∧
          ((Snake.mk [Point2D.mk 0 0, Point2D.mk 1 0] Direction.UP).update 5 5).coords.head? =
            some (q.add Direction.UP.value))) :=
  ⟨by decide,
    claim_C9 (Point2D.mk 0 0) [Point2D.mk 1 0] Direction.UP 5 5 (by decide) (by decide)⟩

/-- C3: a key mapping to the exact negation of the current direction leaves
the direction unchanged; a key mapping to any other direction changes the
direction to it. -/
theorem claim_C3 (s : Snake) (k : String) (d : Direction)
    (hk : char_to_direction (py_lower (py_strip k)) = some d) :
    ((d.value = s.direction.value.neg → ((s.move k).1).direction = s.direction) ∧
      (d.value ≠ s.direction.value.neg → ((s.move k).1).direction = d)) := by
  constructor
  · intro hrev
    have hval : d.value.neg = s.direction.value := by
      rw [hrev, Point2D.neg_neg]
    have hcond : ¬ s.direction.value ≠ d.value.neg := by
      rw [hval]
      simp
    simp [Snake.move, hk, hcond]
  · intro hne
    have hcond : s.direction.value ≠ d.value.neg := by
      intro hcontra
      apply hne
      rw [hcontra, Point2D.neg_neg]
    simp [Snake.move, hk, hcond]

/-- Witness for C3: pressing `w` (mapping to `UP`) against current direction
`DOWN` leaves the direction at `DOWN`. -/
theorem claim_C3_witness :
    char_to_direction (py_lower (py_strip "w")) = some Direction.UP ∧
      ((Direction.UP.value = (Snake.mk [Point2D.mk 0 0] Direction.DOWN).direction.value.neg →
          (((Snake.mk [Point2D.mk 0 0] Direction.DOWN).move "w").1).direction =
            (Snake.mk [Point2D.mk 0 0] Direction.DOWN).direction) ∧
        (Direction.UP.value ≠ (Snake.mk [Point2D.mk 0 0] Direction.DOWN).direction.value.neg →
          (((Snake.mk [Point2D.mk 0 0] Direction.DOWN).move "w").1).direction = Direction.UP)) :=
  ⟨by decide, claim_C3 (Snake.mk [Point2D.mk 0 0] Direction.DOWN) "w" Direction.UP (by decide)⟩

/-- C4: one `update` keeps the body length; `grow` followed by `update` (the
eating tick: two grows before the single pop) adds exactly one segment. -/
theorem claim_C4 (s : Snake) (x_bounds y_bounds : Int)
    (hne : s.coords ≠ []) (hx : 0 < x_bounds) (hy : 0 < y_bounds) :
    ((s.update x_bounds y_bounds).coords.length = s.coords.length) ∧
      ((s.grow.update x_bounds y_bounds).coords.length = s.coords.length + 1) := by
  rcases s with ⟨coords, d⟩
  cases coords with
  | nil => exact absurd rfl hne
  | cons h t =>
    constructor
    · rw [update_coords_eq]
      simp [List.length_dropLast]
    · show ((Snake.mk (h.add d.value :: h :: t) d).update x_bounds y_bounds).coords.length = _
      rw [update_coords_eq]
      simp [List.length_dropLast]

/-- Witness for C4 on a concrete length-2 snake. -/
theorem claim_C4_witness :
    (Snake.mk [Point2D.mk 0 0, Point2D.mk 1 0] Direction.DOWN).coords ≠ [] ∧
      (((Snake.mk [Point2D.mk 0 0, Point2D.mk 1 0] Direction.DOWN).update 5 5).coords.length =
          (Snake.mk [Point2D.mk 0 0, Point2D.mk 1 0] Direction.DOWN).coords.length ∧
        ((Snake.mk [Point2D.mk 0 0, Point2D.mk 1 0] Direction.DOWN).grow.update 5 5).coords.length =
          (Snake.mk [Point2D.mk 0 0, Point2D.mk 1 0] Direction.DOWN).coords.length + 1) :=
  ⟨by decide,
    claim_C4 (Snake.mk [Point2D.mk 0 0, Point2D.mk 1 0] Direction.DOWN) 5 5
      (by decide) (by decide) (by decide)⟩

/-- C6: `is_dead` is true exactly when the head occurs again in the rest of
the body; a body with pairwise distinct coordinates reports false. -/
theorem claim_C6 (h : Point2D) (t : List Point2D) (d : Direction) :
    (((Snake.mk (h :: t) d).is_dead = true) ↔ h ∈ t) ∧
      ((h :: t).Nodup → (Snake.mk (h :: t) d).is_dead = false) := by
  constructor
  · simp [Snake.is_dead]
  · intro hnd
    simp only [Snake.is_dead, decide_eq_false_iff_not]
    exact (List.nodup_cons.mp hnd).1

/-- Witness for C6 on a concrete pairwise-distinct body. -/
theorem claim_C6_witness :
    ((((Snake.mk [Point2D.mk 0 0, Point2D.mk 1 0] Direction.DOWN).is_dead = true) ↔
        Point2D.mk 0 0 ∈ [Point2D.mk 1 0]) ∧
      (([Point2D.mk 0 0, Point2D.mk 1 0] : List Point2D).Nodup →
        (Snake.mk [Point2D.mk 0 0, Point2D.mk 1 0] Direction.DOWN).is_dead = false)) :=
  claim_C6 (Point2D.mk 0 0) [Point2D.mk 1 0] Direction.DOWN

/-- C7: `move` consults `strip`-then-`lower` of the key; `w`/`a`/`s`/`d` map
to `UP`/`LEFT`/`DOWN`/`RIGHT`, `q` makes the call return `false`, and any
other normalized key leaves the snake unchanged and returns `true`. -/
theorem claim_C7 (s : Snake) (k c : String) (hc : c = py_lower (py_strip k)) :
    ((c = "w" → char_to_direction c = some Direction.UP) ∧
      (c = "a" → char_to_direction c = some Direction.LEFT) ∧
      (c = "s" → char_to_direction c = some Direction.DOWN) ∧
      (c = "d" → char_to_direction c = some Direction.RIGHT) ∧
      (c = "q" → (s.move k).2 = false) ∧
      (char_to_direction c = none ∧ c ≠ "q" →
        (s.move k).1 = s ∧ (s.move k).2 = true)) := by
  subst hc
  refine ⟨fun h => by rw [h]; rfl, fun h => by rw [h]; rfl,
    fun h => by rw [h]; rfl, fun h => by rw [h]; rfl, fun h => ?_, fun h => ?_⟩
  · simp [Snake.move, h]
  · rcases h with ⟨hmap, hq⟩
    constructor
    · simp [Snake.move, hmap]
    · simp [Snake.move, hq]

/-- Witness for C7: the key `" X\t"` normalizes to `"x"`, which maps to no
direction and is not the quit key, so the snake is unchanged and the call
returns `true`. -/
theorem claim_C7_witness :
    (("x" = "w" → char_to_direction "x" = some Direction.UP) ∧
      ("x" = "a" → char_to_direction "x" = some Direction.LEFT) ∧
      ("x" = "s" → char_to_direction "x" = some Direction.DOWN) ∧
      ("x" = "d" → char_to_direction "x" = some Direction.RIGHT) ∧
      ("x" = "q" →
        ((Snake.mk [Point2D.mk 0 0] Direction.DOWN).move " X\t").2 = false) ∧
      (char_to_direction "x" = none ∧ "x" ≠ "q" →
        ((Snake.mk [Point2D.mk 0 0] Direction.DOWN).move " X\t").1 =
            Snake.mk [Point2D.mk 0 0] Direction.DOWN ∧
          ((Snake.mk [Point2D.mk 0 0] Direction.DOWN).move " X\t").2 = true)) :=
  claim_C7 (Snake.mk [Point2D.mk 0 0] Direction.DOWN) " X\t" "x" (by decide)

/-- C10: `move` never changes the body, and the direction either stays the
same or becomes the direction the normalized key maps to. -/
theorem claim_C10 (s : Snake) (k : String) :
    ((s.move k).1).coords = s.coords ∧
      (((s.move k).1).direction = s.direction ∨
        char_to_direction (py_lower (py_strip k)) = some ((s.move k).1).direction) := by
  cases hm : char_to_direction (py_lower (py_strip k)) with
  | none => simp [Snake.move, hm]
  | some d =>
    by_cases hcond : s.direction.value ≠ d.value.neg
    · refine ⟨by simp [Snake.move, hm, hcond], Or.inr ?_⟩
      simp [Snake.move, hm, hcond]
    · refine ⟨by simp [Snake.move, hm, hcond], Or.inl ?_⟩
      simp [Snake.move, hm, hcond]

theorem mem_free_cells (x_bounds y_bounds : Int) (occupied : List Point2D) (p : Point2D) :
    p ∈ free_cells x_bounds y_bounds occupied ↔
      (0 ≤ p.x ∧ p.x < x_bounds ∧ 0 ≤ p.y ∧ p.y < y_bounds ∧ p ∉ occupied) := by
  rw [free_cells]
  constructor
  · intro hp
    rw [List.mem_flatMap] at hp
    obtain ⟨x, hxmem, hp⟩ := hp
    rw [List.mem_filterMap] at hp
    obtain ⟨y, hymem, hp⟩ := hp
    rw [List.mem_range] at hxmem
    rw [List.mem_range] at hymem
    by_cases hocc : Point2D.mk (x : Int) (y : Int) ∈ occupied
    · rw [if_pos hocc] at hp
      cases hp
    · rw [if_neg hocc] at hp
      injection hp with hp
      subst hp
      exact ⟨Int.natCast_nonneg x, Int.lt_toNat.mp hxmem,
        Int.natCast_nonneg y, Int.lt_toNat.mp hymem, hocc⟩
  · rintro ⟨hx0, hxlt, hy0, hylt, hocc⟩
    rw [List.mem_flatMap]
    refine ⟨p.x.toNat, ?_, ?_⟩
    · rw [List.mem_range]
      exact Int.lt_toNat.mpr (by rwa [Int.toNat_of_nonneg hx0])
    · rw [List.mem_filterMap]
      refine ⟨p.y.toNat, ?_, ?_⟩
      · rw [List.mem_range]
        exact Int.lt_toNat.mpr (by rwa [Int.toNat_of_nonneg hy0])
      · have hpx : (p.x.toNat : Int) = p.x := Int.toNat_of_nonneg hx0
        have hpy : (p.y.toNat : Int) = p.y := Int.toNat_of_nonneg hy0
        rw [hpx, hpy]
        show (if p ∈ occupied then none else some p) = some p
        rw [if_neg hocc]

/-- C5: with the grid not fully occupied, apple placement returns a cell free
at call time; with every grid cell occupied it signals the win condition
(modelled by `none`) instead of returning a point. -/
theorem claim_C5 (x_bounds y_bounds : Int) (s : Snake) (choice : Nat)
    (hx : 0 < x_bounds) (hy : 0 < y_bounds) :
    ((∃ p : Point2D, 0 ≤ p.x ∧ p.x < x_bounds ∧ 0 ≤ p.y ∧ p.y < y_bounds ∧ p ∉ s.coords) →
      ∃ a : Point2D, new_apple_location x_bounds y_bounds s choice = some a ∧ a ∉ s.coords) ∧
    ((∀ p : Point2D, 0 ≤ p.x → p.x < x_bounds → 0 ≤ p.y → p.y < y_bounds → p ∈ s.coords) →
      new_apple_location x_bounds y_bounds s choice = none) := by
  constructor
  · rintro ⟨p, hp⟩
    have hpmem : p ∈ free_cells x_bounds y_bounds s.coords :=
      (mem_free_cells x_bounds y_bounds s.coords p).mpr hp
    have hne : free_cells x_bounds y_bounds s.coords ≠ [] := by
      intro hnil
      rw [hnil] at hpmem
      cases hpmem
    have hlen : 0 < (free_cells x_bounds y_bounds s.coords).length :=
      List.length_pos.mpr hne
    have hidx : choice % (free_cells x_bounds y_bounds s.coords).length <
        (free_cells x_bounds y_bounds s.coords).length := Nat.mod_lt choice hlen
    refine ⟨(free_cells x_bounds y_bounds s.coords).get
      ⟨choice % (free_cells x_bounds y_bounds s.coords).length, hidx⟩, ?_, ?_⟩
    · simp only [new_apple_location, List.isEmpty_iff, if_neg hne,
        List.getElem?_eq_getElem hidx, List.get_eq_getElem]
    · have hmem := (free_cells x_bounds y_bounds s.coords).get_mem _ hidx
      exact ((mem_free_cells x_bounds y_bounds s.coords _).mp hmem).2.2.2.2
  · intro hcov
    have hnil : free_cells x_bounds y_bounds s.coords = [] := by
      rw [List.eq_nil_iff_forall_not_mem]
      intro p hp
      rcases (mem_free_cells x_bounds y_bounds s.coords p).mp hp with ⟨h1, h2, h3, h4, h5⟩
      exact h5 (hcov p h1 h2 h3 h4)
    simp [new_apple_location, hnil]

/-- Witness for C5 on a `2 × 1` board with the snake occupying `(0, 0)`. -/
theorem claim_C5_witness :
    (0 : Int) < 2 ∧
      (((∃ p : Point2D, 0 ≤ p.x ∧ p.x < 2 ∧ 0 ≤ p.y ∧ p.y < 1 ∧
            p ∉ (Snake.mk [Point2D.mk 0 0] Direction.UP).coords) →
          ∃ a : Point2D, new_apple_location 2 1 (Snake.mk [Point2D.mk 0 0] Direction.UP) 0 =
              some a ∧ a ∉ (Snake.mk [Point2D.mk 0 0] Direction.UP).coords) ∧
        ((∀ p : Point2D, 0 ≤ p.x → p.x < 2 → 0 ≤ p.y → p.y < 1 →
            p ∈ (Snake.mk [Point2D.mk 0 0] Direction.UP).coords) →
          new_apple_location 2 1 (Snake.mk [Point2D.mk 0 0] Direction.UP) 0 = none)) :=
  ⟨by decide, claim_C5 2 1 (Snake.mk [Point2D.mk 0 0] Direction.UP) 0 (by decide) (by decide)⟩

theorem pyIndex_of_in_range {len : Nat} {i : Int} (h0 : 0 ≤ i) (hlt : i < (len : Int)) :
    pyIndex len i = some i.toNat := by
  simp only [pyIndex, if_neg (not_lt.mpr h0)]
  rw [if_pos ⟨h0, hlt⟩]

theorem set_row_shape {X Y : Nat} {b : List (List String)} (hb : board_shape X Y b)
    (yn xn : Nat) (hyn : yn < b.length) (v : String) :
    board_shape X Y (b.set yn ((b.getD yn []).set xn v)) := by
  constructor
  · rw [List.length_set]
    exact hb.1
  · intro r hr
    rcases List.mem_or_eq_of_mem_set hr with hmem | rfl
    · exact hb.2 r hmem
    · rw [List.length_set]
      apply hb.2
      rw [List.getD_eq_getElem?_getD, List.getElem?_eq_getElem hyn]
      exact List.getElem_mem hyn

theorem mark_cell_shape {x_bounds y_bounds : Int} {b : List (List String)}
    (hb : board_shape x_bounds.toNat y_bounds.toNat b) (p : Point2D) :
    board_shape x_bounds.toNat y_bounds.toNat (mark_cell x_bounds y_bounds b p) := by
  rw [mark_cell]
  split
  · rename_i hcond
    apply set_row_shape hb
    rw [hb.1]
    omega
  · exact hb

theorem foldl_mark_shape {x_bounds y_bounds : Int} :
    ∀ (ps : List Point2D) (b : List (List String)),
      board_shape x_bounds.toNat y_bounds.toNat b →
      board_shape x_bounds.toNat y_bounds.toNat (ps.foldl (mark_cell x_bounds y_bounds) b)
  | [], _, hb => hb
  | p :: ps, b, hb =>
    foldl_mark_shape ps (mark_cell x_bounds y_bounds b p) (mark_cell_shape hb p)

theorem setCell_in_range {X Y : Nat} {b : List (List String)} (hb : board_shape X Y b)
    {yi xi : Int} (v : String)
    (hx0 : 0 ≤ xi) (hxlt : xi < (X : Int)) (hy0 : 0 ≤ yi) (hylt : yi < (Y : Int)) :
    setCell b yi xi v = some (b.set yi.toNat ((b.getD yi.toNat []).set xi.toNat v)) := by
  have hylen : yi.toNat < b.length := by
    rw [hb.1]
    omega
  have hrowmem : b.getD yi.toNat [] ∈ b := by
    rw [List.getD_eq_getElem?_getD, List.getElem?_eq_getElem hylen]
    exact List.getElem_mem hylen
  have h1 : pyIndex b.length yi = some yi.toNat := by
    apply pyIndex_of_in_range hy0
    rw [hb.1]
    exact hylt
  have h2 : pyIndex (b.getD yi.toNat []).length xi = some xi.toNat := by
    apply pyIndex_of_in_range hx0
    rw [hb.2 _ hrowmem]
    exact hxlt
  simp only [setCell, h1, h2]

/-- C8: on positive bounds with the apple inside the board (the game invariant; an out-of-range apple write would raise in Python), `plot` returns
`y_bounds + 2` lines: identical border lines first and last, and every line
between them is a bordered row of `x_bounds` cells joined by single spaces. -/
theorem claim_C8 (x_bounds y_bounds : Int) (s : Snake) (apple : Point2D)
    (hx : 0 < x_bounds) (hy : 0 < y_bounds)
    (hax0 : 0 ≤ apple.x) (haxlt : apple.x < x_bounds)
    (hay0 : 0 ≤ apple.y) (haylt : apple.y < y_bounds) :
    ∃ lines : List String, plot x_bounds y_bounds s apple = some lines ∧
      lines.length = y_bounds.toNat + 2 ∧
      lines.head? = some (horizontal_border x_bounds) ∧
      lines.getLast? = some (horizontal_border x_bounds) ∧
      ∀ line ∈ (lines.drop 1).dropLast,
        ∃ row : List String, row.length = x_bounds.toNat ∧ line = render_row row := by
  have hb0 : board_shape x_bounds.toNat y_bounds.toNat
      (List.replicate y_bounds.toNat (List.replicate x_bounds.toNat " ")) := by
    constructor
    · exact List.length_replicate _ _
    · intro r hr
      rw [List.eq_of_mem_replicate hr]
      exact List.length_replicate _ _
  have hxcast : ((x_bounds.toNat : Int)) = x_bounds := Int.toNat_of_nonneg hx.le
  have hycast : ((y_bounds.toNat : Int)) = y_bounds := Int.toNat_of_nonneg hy.le
  obtain ⟨b1, hset, hb1⟩ :
      ∃ b1, setCell (List.replicate y_bounds.toNat (List.replicate x_bounds.toNat " "))
          apple.y apple.x (RED ++ "A" ++ RESET) = some b1 ∧
        board_shape x_bounds.toNat y_bounds.toNat b1 := by
    refine ⟨_, setCell_in_range hb0 _ hax0 ?_ hay0 ?_, ?_⟩
    · rw [hxcast]
      exact haxlt
    · rw [hycast]
      exact haylt
    · apply set_row_shape hb0
      rw [hb0.1]
      omega
  have hb2 := foldl_mark_shape s.coords b1 hb1
  have hplot : plot x_bounds y_bounds s apple =
      some (horizontal_border x_bounds ::
        ((s.coords.foldl (mark_cell x_bounds y_bounds) b1).map render_row
          ++ [horizontal_border x_bounds])) := by
    simp only [plot, hset]
  refine ⟨_, hplot, ?_, ?_, ?_, ?_⟩
  · simp only [List.length_cons, List.length_append, List.length_map,
      List.length_singleton, List.length_nil, hb2.1]
  · rfl
  · rw [show horizontal_border x_bounds ::
          ((s.coords.foldl (mark_cell x_bounds y_bounds) b1).map render_row
            ++ [horizontal_border x_bounds]) =
        (horizontal_border x_bounds ::
          (s.coords.foldl (mark_cell x_bounds y_bounds) b1).map render_row)
          ++ [horizontal_border x_bounds] from rfl]
    exact List.getLast?_concat _
  · intro line hline
    simp only [List.drop_one, List.tail_cons, List.dropLast_concat] at hline
    rcases List.mem_map.mp hline with ⟨row, hrowmem, rfl⟩
    exact ⟨row, hb2.2 row hrowmem, rfl⟩

/-- Witness for C8 on a `2 × 1` board. -/
theorem claim_C8_witness :
    (0 : Int) < 2 ∧
      (∃ lines : List String,
        plot 2 1 (Snake.mk [Point2D.mk 0 0] Direction.UP) (Point2D.mk 1 0) = some lines ∧
        lines.length = (1 : Int).toNat + 2 ∧
        lines.head? = some (horizontal_border 2) ∧
        lines.getLast? = some (horizontal_border 2) ∧
        ∀ line ∈ (lines.drop 1).dropLast,
          ∃ row : List String, row.length = (2 : Int).toNat ∧ line = render_row row) :=
  ⟨by decide,
    claim_C8 2 1 (Snake.mk [Point2D.mk 0 0] Direction.UP) (Point2D.mk 1 0)
      (by decide) (by decide) (by decide) (by decide) (by decide) (by decide)⟩

end SnakeGame
